import Mathlib

/-!
Shallow embedding of the dfs-lineup-optimizer repository (src/dfs/optimize.py
and src/dfs/data_frame_utils.py), together with theorems settling the frozen
claims about its specification.

Conventions of the embedding:
* Python exceptions are modelled by the inductive `PyErr`; a fallible
  operation returns `Except (PyErr × σ) σ` where the error also carries the
  state left behind when the exception propagates.
* Python dicts are modelled by `Option`-valued lookups (`none` = `KeyError`).
* `pandas` rows are structures; a possibly-missing cell is an `Option`.
* Machine-external pieces (the PuLP solver, file IO) are abstracted as
  function parameters; everything the claims quantify over is executable.
-/

namespace DfsOptimize

/-- Normalized football positions, from dfs.positions (QB, RB, WR, TE, DST
plus the FLEX role used for the promotion in `OptimizedLineup.__init__`). -/
inductive Pos
  | QB | RB | WR | TE | DST | FLEX
deriving DecidableEq, Repr

/-- Exception kinds raised by the code under src/dfs:
ValueError, InvalidConstraintException, InvalidDataFrameException,
UnsolvableLineupException and Python's dict KeyError. -/
inductive PyErr
  | valueError
  | invalidConstraint
  | invalidDataFrame
  | unsolvable
  | keyError
deriving DecidableEq, Repr

/-- The user-addable constraint variants built by the setters of
`LineupOptimizer` in src/dfs/optimize.py (constructors carry exactly the
data the Python constructors receive, minus the redundant column names for
the team constraints). -/
inductive Constraint
  | maxPlayersFromTeam (maximum : Int) (team : String)
  | minPlayersFromTeam (minimum : Int) (team : String)
  | includePlayer (player : String) (col : String)
  | excludePlayer (player : String) (col : String)
deriving DecidableEq, Repr

/-- Modelled from the spec: the kind-specific validation performed by
`LineupConstraint.is_valid` lives in the dfs.constraints module, which is not
under src/.  Following the spec's words: a team player bound must carry a
bound in [0, rosterSize]; the registry never holds jointly-unsatisfiable
constraints (a team minimum above a registered team maximum, or an include
and an exclude for the same player). -/
def is_valid (c : Constraint) (existing : List Constraint) (num_players : Int) : Bool :=
  match c with
  | .maxPlayersFromTeam m t =>
      decide (0 ≤ m) && decide (m ≤ num_players) &&
      existing.all (fun c' => match c' with
        | .minPlayersFromTeam n t' => !(t' == t) || decide (n ≤ m)
        | _ => true)
  | .minPlayersFromTeam n t =>
      decide (0 ≤ n) && decide (n ≤ num_players) &&
      existing.all (fun c' => match c' with
        | .maxPlayersFromTeam m t' => !(t' == t) || decide (n ≤ m)
        | _ => true)
  | .includePlayer k col =>
      existing.all (fun c' => match c' with
        | .excludePlayer k' col' => !(k' == k && col' == col)
        | _ => true)
  | .excludePlayer k col =>
      existing.all (fun c' => match c' with
        | .includePlayer k' col' => !(k' == k && col' == col)
        | _ => true)

/-- The state of a `LineupOptimizer` session that the constraint setters
touch: the declared column names, the column contents of the pool
(`self._data[col].unique()` is modelled by membership in `col_values col`),
the site's roster size (`num_players()`), and the constraint registry
`self._constraints`. -/
structure Optimizer where
  name_col : String
  id_col : Option String
  team_col : String
  col_values : String → List String
  num_players : Int
  cs : List Constraint

/-- Result of a registry-mutating call: `ok` carries the new registry,
`error` carries the exception kind together with the registry left behind
when the exception propagates. -/
abbrev RegResult := Except (PyErr × List Constraint) (List Constraint)

/-- `LineupOptimizer._add_constraint`: validate against the existing
constraints, append on success, raise InvalidConstraintException otherwise. -/
def add_constraint (o : Optimizer) (c : Constraint) : RegResult :=
  if is_valid c o.cs o.num_players then .ok (o.cs ++ [c])
  else .error (.invalidConstraint, o.cs)

/-- `LineupOptimizer.set_max_players_from_team`. -/
def set_max_players_from_team (o : Optimizer) (n : Int) (team : String) : RegResult :=
  if n < 0 then .error (.valueError, o.cs)
  else if team ∉ o.col_values o.team_col then .error (.valueError, o.cs)
  else add_constraint o (.maxPlayersFromTeam n team)

/-- `LineupOptimizer.set_min_players_from_team`. -/
def set_min_players_from_team (o : Optimizer) (n : Int) (team : String) : RegResult :=
  if n > o.num_players then .error (.valueError, o.cs)
  else if team ∉ o.col_values o.team_col then .error (.valueError, o.cs)
  else if n = 0 then .ok o.cs
  else add_constraint o (.minPlayersFromTeam n team)

/-- `LineupOptimizer.set_num_players_from_team`: add the max constraint,
then the min constraint; if the latter raises InvalidConstraintException,
pop the max constraint (`self._constraints.pop()`) and re-raise. -/
def set_num_players_from_team (o : Optimizer) (n : Int) (team : String) : RegResult :=
  if n > o.num_players then .error (.valueError, o.cs)
  else if team ∉ o.col_values o.team_col then .error (.valueError, o.cs)
  else
    match add_constraint o (.maxPlayersFromTeam n team) with
    | .error e => .error e
    | .ok cs1 =>
      match add_constraint { o with cs := cs1 } (.minPlayersFromTeam n team) with
      | .ok cs2 => .ok cs2
      | .error (e, _) => .error (e, cs1.dropLast)

/-- A player reference passed through kwargs: either `id=` or `name=`. -/
inductive PlayerRef
  | byId (key : String)
  | byName (key : String)
deriving DecidableEq, Repr

/-- `LineupOptimizer.set_must_include_player`: resolve the column from the
kwargs, check the key is present in that column, then add the include
constraint. -/
def set_must_include_player (o : Optimizer) (ref : PlayerRef) : RegResult :=
  match ref with
  | .byId key =>
    match o.id_col with
    | none => .error (.valueError, o.cs)
    | some idc =>
      if key ∈ o.col_values idc then add_constraint o (.includePlayer key idc)
      else .error (.valueError, o.cs)
  | .byName key =>
    if key ∈ o.col_values o.name_col then add_constraint o (.includePlayer key o.name_col)
    else .error (.valueError, o.cs)

/-- `LineupOptimizer.set_exclude_player`: same resolution as
`set_must_include_player` but adds the exclude constraint. -/
def set_exclude_player (o : Optimizer) (ref : PlayerRef) : RegResult :=
  match ref with
  | .byId key =>
    match o.id_col with
    | none => .error (.valueError, o.cs)
    | some idc =>
      if key ∈ o.col_values idc then add_constraint o (.excludePlayer key idc)
      else .error (.valueError, o.cs)
  | .byName key =>
    if key ∈ o.col_values o.name_col then add_constraint o (.excludePlayer key o.name_col)
    else .error (.valueError, o.cs)

/-- A selected row after the column mapping of `OptimizedLineup.__init__`
(one entry of `players_dict` with the non-mapped keys deleted).  Scores are
modelled over `Int` and kickoff datetimes over `Nat` (ordered timestamps). -/
structure SelPlayer where
  name : String
  position : Pos
  team : String
  opponent : String
  points : Int
  salary : Nat
  datetime : Nat
deriving DecidableEq, Repr

/-- `LineupPlayer`: the lineup role `lineup_position` starts out equal to
the raw position (`LineupPlayer.__init__`, lines 124-126). -/
structure LineupPlayer where
  name : String
  position : Pos
  lineup_position : Pos
  team : String
  opponent : String
  points : Int
  salary : Nat
  datetime : Nat
deriving DecidableEq, Repr

/-- `LineupPlayer.__init__` applied to a mapped player dict. -/
def LineupPlayer.init (p : SelPlayer) : LineupPlayer :=
  { name := p.name, position := p.position, lineup_position := p.position,
    team := p.team, opponent := p.opponent, points := p.points,
    salary := p.salary, datetime := p.datetime }

/-- Number of selected players of a given position. -/
def posCount (ps : List SelPlayer) (q : Pos) : Nat :=
  (ps.filter (fun p => p.position == q)).length

/-- The `position_to_count` dict of `OptimizedLineup.__init__`: a key is
present exactly when at least one selected player has that position, so a
lookup of an unselected position is a `KeyError` (`none`). -/
def position_to_count (ps : List SelPlayer) (q : Pos) : Option Nat :=
  if posCount ps q = 0 then none else some (posCount ps q)

/-- The list built at lines 65-66 of optimize.py: the lineup players of
position `q` (keeping their indices, which stand for Python object
identity), sorted ascending by kickoff datetime (`sorted` is a stable
ascending sort, embedded by `List.mergeSort`). -/
def flexCandidates (players : List LineupPlayer) (q : Pos) : List (Nat × LineupPlayer) :=
  (players.enum.filter (fun x => x.2.position == q)).mergeSort
    (fun a b => a.2.datetime ≤ b.2.datetime)

/-- The mutation at line 67 of optimize.py
(`players_for_position[-1].lineup_position = FLEX`): set the
`lineup_position` of the last — latest-kickoff — candidate to FLEX. -/
def promoteAt (players : List LineupPlayer) (q : Pos) : List LineupPlayer :=
  match (flexCandidates players q).getLast? with
  | none => players
  | some (i, pl) => players.set i { pl with lineup_position := Pos.FLEX }

/-- The flex loop of `OptimizedLineup.__init__` (lines 61-68): iterate the
positions in order; look up the position's declared range in the
`position_constraints()` dict, then its selected count in
`position_to_count`; at the first position whose count equals the declared
maximum, promote and break.  Either dict lookup may raise `KeyError`. -/
def flexLoop (pc : Pos → Option (Nat × Nat)) (ps : List SelPlayer)
    (players : List LineupPlayer) : List Pos → Except PyErr (List LineupPlayer)
  | [] => .ok players
  | q :: rest =>
    match pc q with
    | none => .error .keyError
    | some r =>
      match position_to_count ps q with
      | none => .error .keyError
      | some c =>
        if c = r.2 then .ok (promoteAt players q)
        else flexLoop pc ps players rest

/-- The fixed iteration order of the flex loop: `for position in (RB, WR, TE)`. -/
def flexOrder : List Pos := [Pos.RB, Pos.WR, Pos.TE]

/-- Lineup extraction of `OptimizedLineup.__init__`: build the
`LineupPlayer`s from the selected rows, then run the flex loop. -/
def extractPlayers (pc : Pos → Option (Nat × Nat)) (ps : List SelPlayer) :
    Except PyErr (List LineupPlayer) :=
  flexLoop pc ps (ps.map LineupPlayer.init) flexOrder

/-- Whether position `q` is saturated: its selected count equals the maximum
declared for it in the `position_constraints()` mapping. -/
def saturatedB (pc : Pos → Option (Nat × Nat)) (ps : List SelPlayer) (q : Pos) : Bool :=
  match pc q with
  | some r => posCount ps q == r.2
  | none => false

/-- The first FLEX-eligible position (in the fixed RB, WR, TE order) whose
selected count equals its declared maximum, if any. -/
def firstSaturated (pc : Pos → Option (Nat × Nat)) (ps : List SelPlayer) : Option Pos :=
  flexOrder.find? (saturatedB pc ps)

/-- `data_frame_utils.col_contains_all_values` specialised to the position
column of the pool: `all(val in df[col].unique() for val in values)` —
membership in the column's unique values is membership in the column. -/
def col_contains_all_values (rows : List SelPlayer) (values : List Pos) : Bool :=
  values.all (fun v => (rows.map (fun r => r.position)).contains v)

/-- The eager check opening `LineupOptimizer.optimize_lineup` (lines
533-535): if some position of `position_constraints()` has no eligible row,
raise InvalidDataFrameException; otherwise continue into model building,
solving and extraction, which are abstracted as the continuation `rest`
(lines 536-552; the solver is external). -/
def optimize_lineup (rest : List SelPlayer → Except PyErr (List LineupPlayer))
    (rows : List SelPlayer) (ranges : List (Pos × Nat × Nat)) :
    Except PyErr (List LineupPlayer) :=
  if col_contains_all_values rows (ranges.map (fun r => r.1)) then rest rows
  else .error .invalidDataFrame

/-- A raw input row as handed to `LineupOptimizer.__init__`: every cell may
be missing (`none` = NaN).  Besides the required semantic columns the table
may carry extra columns, represented by the single cell `extra`; the id
column may or may not be declared by the caller. -/
structure RawRow where
  name : Option String
  position : Option String
  salary : Option Int
  points : Option Int
  team : Option String
  opponent : Option String
  datetime : Option Nat
  id : Option String
  extra : Option String
deriving DecidableEq, Repr

/-- Modelled from the spec: `normalize_position` lives in dfs.positions,
which is not under src/.  The spec says only that free-text position labels
are normalized to the fixed enumeration, so the model keeps canonical
labels and sends anything else (including a missing cell) to `none`. -/
def normalize_position : Option String → Option String
  | some s => if s ∈ ["QB", "RB", "WR", "TE", "DST"] then some s else none
  | none => none

/-- Line 222 of optimize.py: apply `normalize_position` to the position
column of a row. -/
def normalizeRow (r : RawRow) : RawRow :=
  { r with position := normalize_position r.position }

/-- `DataFrame.dropna` keeps a row exactly when every cell of every column
present in the table is non-null. -/
def dropna_keep (r : RawRow) : Bool :=
  r.name.isSome && r.position.isSome && r.salary.isSome && r.points.isSome &&
  r.team.isSome && r.opponent.isSome && r.datetime.isSome && r.id.isSome &&
  r.extra.isSome

/-- The required columns of the claim: name, position, salary, score, team,
opponent, kickoff time, and id exactly when an id column is declared. -/
def required_non_null (id_declared : Bool) (r : RawRow) : Bool :=
  r.name.isSome && r.position.isSome && r.salary.isSome && r.points.isSome &&
  r.team.isSome && r.opponent.isSome && r.datetime.isSome &&
  (!id_declared || r.id.isSome)

/-- Lines 222-223 of `LineupOptimizer.__init__`: normalize the position
column, then drop the rows with a missing value. -/
def construct_pool (rows : List RawRow) : List RawRow :=
  (rows.map normalizeRow).filter dropna_keep

/-- One optimizer session over a store of tables.  `pandas` objects are
references into the store; the session's private table lives at `dataIdx`. -/
structure SessionState where
  store : List (List RawRow)
  dataIdx : Nat
  registry : List Constraint
deriving Repr

/-- Line 189 of optimize.py: `self._data = data_source.copy()` — the session
table is a fresh copy of the caller's table at `src`, to which the in-place
construction-time mutations (lines 222-223) are then applied; the caller's
entry in the store is not touched. -/
def construct_session (store : List (List RawRow)) (src : Nat) : SessionState :=
  { store := store ++ [construct_pool (store.getD src [])],
    dataIdx := store.length,
    registry := [] }

/-- The mutations a session performs after construction: the constraint
setters touch only the registry; `clear_constraints` resets it; and
`optimize_lineup` mutates only the session's own table (the in-place
LpVariable column assignment at line 536), abstracted as an arbitrary
transformation of that table. -/
inductive SessionOp
  | addConstraint (c : Constraint)
  | clearConstraints
  | mutateOwnData (f : List RawRow → List RawRow)

/-- Apply one session operation to the session state. -/
def applyOp (st : SessionState) : SessionOp → SessionState
  | .addConstraint c => { st with registry := st.registry ++ [c] }
  | .clearConstraints => { st with registry := [] }
  | .mutateOwnData f =>
    { st with store := st.store.set st.dataIdx (f (st.store.getD st.dataIdx [])) }

/-- Apply a sequence of session operations. -/
def applyOps (st : SessionState) (ops : List SessionOp) : SessionState :=
  ops.foldl applyOp st

/-- Attribute values of a `LineupPlayer`, as written to a CSV record or a
dict. -/
inductive Value
  | str (v : String)
  | int (v : Int)
  | nat (v : Nat)
  | pos (v : Pos)
deriving DecidableEq, Repr

/-- `LineupPlayer.__dir__` (lines 150-151): the attribute names used by
`OptimizedLineup.write_to_file` for both the CSV header and each row. -/
def dirLineupPlayer : List String :=
  ["name", "position", "team", "opponent", "points", "salary", "datetime"]

/-- `player.__getattribute__(k)` for the attributes a `LineupPlayer` has;
an unknown name is an AttributeError (`none`). -/
def LineupPlayer.getattribute (pl : LineupPlayer) : String → Option Value
  | "name" => some (.str pl.name)
  | "position" => some (.pos pl.position)
  | "lineup_position" => some (.pos pl.lineup_position)
  | "team" => some (.str pl.team)
  | "opponent" => some (.str pl.opponent)
  | "points" => some (.int pl.points)
  | "salary" => some (.nat pl.salary)
  | "datetime" => some (.nat pl.datetime)
  | _ => none

/-- The flat record `write_to_file` emits for one player (line 88):
`{k: player.__getattribute__(k) for k in dir(player)}`. -/
def write_record (pl : LineupPlayer) : List (String × Option Value) :=
  dirLineupPlayer.map (fun k => (k, pl.getattribute k))

/-- `LineupPlayer.to_dict` (lines 133-148); the datetime is stringified. -/
def LineupPlayer.to_dict (pl : LineupPlayer) : List (String × Value) :=
  [("name", .str pl.name),
   ("position", .pos pl.position),
   ("lineup_position", .pos pl.lineup_position),
   ("team", .str pl.team),
   ("opponent", .str pl.opponent),
   ("points", .int pl.points),
   ("salary", .nat pl.salary),
   ("datetime", .str (toString pl.datetime))]

/-- A concrete selected set: two RBs (kickoffs 10 and 20), three WRs, one
TE. -/
def psDemo : List SelPlayer :=
  [⟨"RB1", .RB, "GB", "CHI", 15, 6000, 10⟩,
   ⟨"RB2", .RB, "DAL", "PHI", 14, 5500, 20⟩,
   ⟨"WR1", .WR, "GB", "CHI", 13, 5000, 10⟩,
   ⟨"WR2", .WR, "KC", "DEN", 12, 4800, 30⟩,
   ⟨"WR3", .WR, "KC", "DEN", 11, 4500, 30⟩,
   ⟨"TE1", .TE, "SF", "SEA", 9, 4000, 20⟩]

/-- A site profile under which `psDemo`'s RB count (2) equals the declared
RB maximum, so RB is the first saturated FLEX-eligible position. -/
def pcDemo : Pos → Option (Nat × Nat)
  | .RB => some (2, 2)
  | .WR => some (2, 4)
  | .TE => some (1, 2)
  | _ => none

/-- A concrete selected set with no RB at all: one QB, one WR, one TE. -/
def psCex : List SelPlayer :=
  [⟨"QB1", .QB, "GB", "CHI", 20, 6000, 10⟩,
   ⟨"WR1", .WR, "GB", "CHI", 12, 5000, 10⟩,
   ⟨"TE1", .TE, "DAL", "PHI", 9, 4000, 20⟩]

/-- A site profile consistent with `psCex` (all selected counts lie inside
the declared ranges) under which no FLEX-eligible position is saturated. -/
def pcCex : Pos → Option (Nat × Nat)
  | .QB => some (1, 1)
  | .RB => some (0, 2)
  | .WR => some (1, 3)
  | .TE => some (1, 3)
  | _ => none

/-! ## Helper lemmas for the flex-promotion theorems (claims C1, C2) -/

/-- Filtering an enumerated list on the payload keeps as many elements as
filtering the list itself. -/
theorem enumFrom_filter_snd_length {α : Type} (p : α → Bool) :
    ∀ (l : List α) (n : Nat),
      ((l.enumFrom n).filter (fun x => p x.2)).length = (l.filter p).length := by
  intro l
  induction l with
  | nil => intro n; rfl
  | cons a l ih =>
    intro n
    rw [List.enumFrom_cons, List.filter_cons, List.filter_cons]
    cases hpa : p a <;> simp [hpa, ih (n + 1)]

/-- In a `Pairwise R` list, every element is `R`-below the last element (or
is it). -/
theorem rel_getLast?_of_pairwise {β : Type} {R : β → β → Prop} :
    ∀ {l : List β}, l.Pairwise R → ∀ {w}, l.getLast? = some w →
      ∀ z ∈ l, R z w ∨ z = w := by
  intro l
  induction l with
  | nil => intro _ w hw; cases hw
  | cons a l ih =>
    intro hp w hw z hz
    cases l with
    | nil =>
      have hwa : a = w := by simpa using hw
      have hza : z = a := by simpa using hz
      right
      rw [hza, hwa]
    | cons b l' =>
      have hw' : (b :: l').getLast? = some w := by
        rw [List.getLast?_cons_cons] at hw
        exact hw
      rcases List.mem_cons.1 hz with hza | hzm
      · left
        rw [hza]
        exact (List.pairwise_cons.1 hp).1 w (List.mem_of_getLast?_eq_some hw')
      · exact ih (List.pairwise_cons.1 hp).2 hw' z hzm

/-- Specification of `promoteAt`: when at least one player has position
`q`, exactly one index is rewritten — its player has position `q`, keeps
all fields except `lineup_position` (now FLEX), and its kickoff datetime is
maximal among the position-`q` players. -/
theorem promoteAt_spec (players : List LineupPlayer) (q : Pos)
    (h : 0 < (players.filter (fun p => p.position == q)).length) :
    ∃ i pl, players[i]? = some pl ∧ pl.position = q ∧
      promoteAt players q = players.set i { pl with lineup_position := Pos.FLEX } ∧
      ∀ p ∈ players, p.position = q → p.datetime ≤ pl.datetime := by
  have hlen : (flexCandidates players q).length =
      (players.filter (fun p => p.position == q)).length := by
    rw [flexCandidates, (List.mergeSort_perm _ _).length_eq, List.enum_eq_enumFrom]
    exact enumFrom_filter_snd_length (fun a => a.position == q) players 0
  have hne : flexCandidates players q ≠ [] := by
    intro hnil
    rw [hnil] at hlen
    simp at hlen
    omega
  cases hlast : (flexCandidates players q).getLast? with
  | none => exact absurd (List.getLast?_eq_none_iff.1 hlast) hne
  | some w =>
    obtain ⟨i, pl⟩ := w
    have hmem_sp : (i, pl) ∈ flexCandidates players q :=
      List.mem_of_getLast?_eq_some hlast
    have hmem_idxd : (i, pl) ∈ players.enum.filter (fun x => x.2.position == q) :=
      ((List.mergeSort_perm _ _).mem_iff).1 hmem_sp
    have h1 := List.mem_filter.1 hmem_idxd
    have hip : players[i]? = some pl := by
      have h2 := List.mk_mem_enumFrom_iff_le_and_getElem?_sub.1 h1.1
      simpa using h2.2
    have hpos : pl.position = q := by simpa using h1.2
    refine ⟨i, pl, hip, hpos, ?_, ?_⟩
    · simp only [promoteAt, hlast]
    · intro p hp hposp
      obtain ⟨j, hj⟩ := List.mem_iff_getElem?.1 hp
      have hjmem : (j, p) ∈ players.enum := by
        apply List.mk_mem_enumFrom_iff_le_and_getElem?_sub.2
        exact ⟨Nat.zero_le j, by simpa using hj⟩
      have hjidxd : (j, p) ∈ players.enum.filter (fun x => x.2.position == q) :=
        List.mem_filter.2 ⟨hjmem, by simp [hposp]⟩
      have hjsp : (j, p) ∈ flexCandidates players q :=
        ((List.mergeSort_perm _ _).mem_iff).2 hjidxd
      have hpair : (flexCandidates players q).Pairwise
          (fun a b => ((a.2.datetime ≤ b.2.datetime : Bool) : Prop)) := by
        apply List.sorted_mergeSort
        · intro a b c hab hbc
          simp only [decide_eq_true_eq] at *
          omega
        · intro a b
          simp [Nat.le_total]
      rcases rel_getLast?_of_pairwise hpair hlast (j, p) hjsp with hrel | heq
      · simpa using hrel
      · rw [show p = pl from congrArg Prod.snd heq]

/-- The initial lineup players carry as many position-`q` members as the
selected rows do. -/
theorem filter_map_init_length (ps : List SelPlayer) (q : Pos) :
    ((ps.map LineupPlayer.init).filter (fun p => p.position == q)).length =
      posCount ps q := by
  rw [posCount]
  induction ps with
  | nil => rfl
  | cons a l ih =>
    rw [List.map_cons, List.filter_cons, List.filter_cons]
    have hpos : (LineupPlayer.init a).position = a.position := rfl
    cases hpa : (a.position == q) <;> simp [hpos, hpa, ih]

/-- When the first saturated position of the iteration order is `q`, the
flex loop stops there and promotes within `q`. -/
theorem flexLoop_found (pc : Pos → Option (Nat × Nat)) (ps : List SelPlayer)
    (players : List LineupPlayer) :
    ∀ (order : List Pos) (q : Pos),
      (∀ r ∈ order, (pc r).isSome ∧ 0 < posCount ps r) →
      order.find? (saturatedB pc ps) = some q →
      flexLoop pc ps players order = .ok (promoteAt players q) := by
  intro order
  induction order with
  | nil => intro q _ hfind; cases hfind
  | cons r rest ih =>
    intro q hdef hfind
    obtain ⟨hsome, hcnt⟩ := hdef r (List.mem_cons_self r rest)
    obtain ⟨rr, hrr⟩ := Option.isSome_iff_exists.1 hsome
    have hptc : position_to_count ps r = some (posCount ps r) := by
      rw [position_to_count, if_neg (by omega)]
    cases hsat : saturatedB pc ps r with
    | true =>
      have hq : q = r := by
        rw [List.find?_cons_of_pos _ hsat] at hfind
        exact (Option.some.inj hfind).symm
      subst hq
      have hcm : posCount ps q = rr.2 := by
        rw [saturatedB, hrr] at hsat
        simpa using hsat
      simp only [flexLoop, hrr, hptc]
      rw [if_pos hcm]
    | false =>
      have hfind' : rest.find? (saturatedB pc ps) = some q := by
        rw [List.find?_cons_of_neg _ (by simp [hsat])] at hfind
        exact hfind
      have hcm : ¬ posCount ps r = rr.2 := by
        rw [saturatedB, hrr] at hsat
        simpa using hsat
      simp only [flexLoop, hrr, hptc]
      rw [if_neg hcm]
      exact ih q (fun x hx => hdef x (List.mem_cons_of_mem _ hx)) hfind'

/-- When no position of the iteration order is saturated, the flex loop
falls through and promotes nobody. -/
theorem flexLoop_none (pc : Pos → Option (Nat × Nat)) (ps : List SelPlayer)
    (players : List LineupPlayer) :
    ∀ (order : List Pos),
      (∀ r ∈ order, (pc r).isSome ∧ 0 < posCount ps r) →
      order.find? (saturatedB pc ps) = none →
      flexLoop pc ps players order = .ok players := by
  intro order
  induction order with
  | nil => intro _ _; rfl
  | cons r rest ih =>
    intro hdef hfind
    obtain ⟨hsome, hcnt⟩ := hdef r (List.mem_cons_self r rest)
    obtain ⟨rr, hrr⟩ := Option.isSome_iff_exists.1 hsome
    have hptc : position_to_count ps r = some (posCount ps r) := by
      rw [position_to_count, if_neg (by omega)]
    have hsat : saturatedB pc ps r = false := by
      have := List.find?_eq_none.1 hfind r (List.mem_cons_self r rest)
      simpa using this
    have hcm : ¬ posCount ps r = rr.2 := by
      rw [saturatedB, hrr] at hsat
      simpa using hsat
    have hfind' : rest.find? (saturatedB pc ps) = none := by
      rw [List.find?_eq_none] at hfind ⊢
      exact fun x hx => hfind x (List.mem_cons_of_mem _ hx)
    simp only [flexLoop, hrr, hptc]
    rw [if_neg hcm]
    exact ih (fun x hx => hdef x (List.mem_cons_of_mem _ hx)) hfind'

/-- Every freshly initialised lineup player has its role equal to its raw
position. -/
theorem init_roles_match (ps : List SelPlayer) :
    ∀ p ∈ ps.map LineupPlayer.init, (p.lineup_position != p.position) = false := by
  intro p hp
  obtain ⟨x, _, rfl⟩ := List.mem_map.1 hp
  simp [LineupPlayer.init]

/-- Overwriting one entry of a list none of whose entries satisfies `pred`
with an entry that does leaves exactly that entry in the filter. -/
theorem filter_set_of_all_false {β : Type} (pred : β → Bool) :
    ∀ (l : List β) (i : Nat) (y : β), (∀ a ∈ l, pred a = false) → pred y = true →
      i < l.length → (l.set i y).filter pred = [y] := by
  intro l
  induction l with
  | nil => intro i y _ _ hi; cases hi
  | cons a l ih =>
    intro i y hall hy hi
    cases i with
    | zero =>
      rw [List.set_cons_zero, List.filter_cons, if_pos hy,
        List.filter_eq_nil_iff.2
          (fun b hb => by simp [hall b (List.mem_cons_of_mem _ hb)])]
    | succ i =>
      rw [List.set_cons_succ, List.filter_cons,
        if_neg (by simp [hall a (List.mem_cons_self _ _)])]
      exact ih i y (fun b hb => hall b (List.mem_cons_of_mem _ hb)) hy
        (by simpa using hi)

/-! ## Theorems about the constraint registry (claims C3-C6) -/

/-- C3: for every registry state and every paired min+max team-bound
addition (`set_num_players_from_team`), if the second half of the pair is
rejected as an invalid constraint, the first half is undone (the trailing
max constraint is popped) and the call raises InvalidConstraintException,
leaving the constraint registry exactly equal to its state before the pair
began. -/
theorem set_num_players_rollback (o : Optimizer) (n : Int) (team : String)
    (hn : ¬ n > o.num_players)
    (ht : team ∈ o.col_values o.team_col)
    (hmax : is_valid (.maxPlayersFromTeam n team) o.cs o.num_players = true)
    (hmin : is_valid (.minPlayersFromTeam n team)
      (o.cs ++ [.maxPlayersFromTeam n team]) o.num_players = false) :
    set_num_players_from_team o n team = .error (.invalidConstraint, o.cs) := by
  unfold set_num_players_from_team add_constraint
  simp only [if_neg hn, if_neg (by simp [ht] : ¬ team ∉ o.col_values o.team_col),
    hmax, if_pos rfl]
  simp [hmin, List.dropLast_concat]

/-- Witness for the rollback theorem: a registry already holding a max-1
bound for GB rejects the min half of `set_num_players_from_team(2, GB)`,
and the max half added by the same call is popped again. -/
theorem set_num_players_rollback_witness :
    set_num_players_from_team
      { name_col := "name", id_col := none, team_col := "team",
        col_values := fun _ => ["GB"], num_players := 9,
        cs := [.maxPlayersFromTeam 1 "GB"] } 2 "GB" =
      .error (.invalidConstraint, [.maxPlayersFromTeam 1 "GB"]) :=
  set_num_players_rollback _ 2 "GB" (by decide) (by decide) (by decide) (by decide)

/-- C4: for every call of `set_max_players_from_team`,
`set_min_players_from_team` or `set_num_players_from_team` whose bound lies
outside [0, numPlayers], the call fails with an error before any mutation
and the constraint registry is unchanged. -/
theorem team_bound_out_of_range (o : Optimizer) (n : Int) (team : String)
    (h : n < 0 ∨ o.num_players < n) :
    (∃ e, set_max_players_from_team o n team = .error (e, o.cs)) ∧
    (∃ e, set_min_players_from_team o n team = .error (e, o.cs)) ∧
    (∃ e, set_num_players_from_team o n team = .error (e, o.cs)) := by
  refine ⟨?_, ?_, ?_⟩
  · unfold set_max_players_from_team add_constraint
    by_cases hn0 : n < 0
    · exact ⟨.valueError, by rw [if_pos hn0]⟩
    · have hnp : o.num_players < n := by rcases h with h | h <;> omega
      by_cases hteam : team ∈ o.col_values o.team_col
      · have hval : is_valid (.maxPlayersFromTeam n team) o.cs o.num_players = false := by
          simp only [is_valid]
          rw [decide_eq_false (by omega : ¬ n ≤ o.num_players)]
          simp
        exact ⟨.invalidConstraint, by
          rw [if_neg hn0, if_neg (not_not_intro hteam), if_neg (by simp [hval])]⟩
      · exact ⟨.valueError, by rw [if_neg hn0, if_pos hteam]⟩
  · unfold set_min_players_from_team add_constraint
    by_cases hnp : n > o.num_players
    · exact ⟨.valueError, by rw [if_pos hnp]⟩
    · have hn0 : n < 0 := by rcases h with h | h <;> omega
      by_cases hteam : team ∈ o.col_values o.team_col
      · have hval : is_valid (.minPlayersFromTeam n team) o.cs o.num_players = false := by
          simp only [is_valid]
          rw [decide_eq_false (by omega : ¬ (0 : Int) ≤ n)]
          simp
        exact ⟨.invalidConstraint, by
          rw [if_neg hnp, if_neg (not_not_intro hteam), if_neg (by omega : ¬ n = 0),
            if_neg (by simp [hval])]⟩
      · exact ⟨.valueError, by rw [if_neg hnp, if_pos hteam]⟩
  · unfold set_num_players_from_team add_constraint
    by_cases hnp : n > o.num_players
    · exact ⟨.valueError, by rw [if_pos hnp]⟩
    · have hn0 : n < 0 := by rcases h with h | h <;> omega
      by_cases hteam : team ∈ o.col_values o.team_col
      · have hval : is_valid (.maxPlayersFromTeam n team) o.cs o.num_players = false := by
          simp only [is_valid]
          rw [decide_eq_false (by omega : ¬ (0 : Int) ≤ n)]
          simp
        exact ⟨.invalidConstraint, by
          rw [if_neg hnp, if_neg (not_not_intro hteam), if_neg (by simp [hval])]⟩
      · exact ⟨.valueError, by rw [if_neg hnp, if_pos hteam]⟩

/-- Witness for the out-of-range theorem at the concrete bound n = -1. -/
theorem team_bound_out_of_range_witness :
    (∃ e, set_max_players_from_team
      { name_col := "name", id_col := none, team_col := "team",
        col_values := fun _ => ["GB"], num_players := 9, cs := [] } (-1) "GB" =
        .error (e, [])) ∧
    (∃ e, set_min_players_from_team
      { name_col := "name", id_col := none, team_col := "team",
        col_values := fun _ => ["GB"], num_players := 9, cs := [] } (-1) "GB" =
        .error (e, [])) ∧
    (∃ e, set_num_players_from_team
      { name_col := "name", id_col := none, team_col := "team",
        col_values := fun _ => ["GB"], num_players := 9, cs := [] } (-1) "GB" =
        .error (e, [])) :=
  team_bound_out_of_range _ (-1) "GB" (by decide)

/-- C5 counterexample: the minimum half of `set_num_players_from_team` with
n = 0 is NOT silently discarded — on an empty registry the call succeeds
and stores a zero-minimum constraint (the discard guard `if n == 0: return`
exists only in `set_min_players_from_team`, which
`set_num_players_from_team` does not go through). -/
theorem set_num_zero_min_is_stored :
    set_num_players_from_team
      { name_col := "name", id_col := none, team_col := "team",
        col_values := fun _ => ["GB"], num_players := 9, cs := [] } 0 "GB" =
      .ok [.maxPlayersFromTeam 0 "GB", .minPlayersFromTeam 0 "GB"] ∧
    Constraint.minPlayersFromTeam 0 "GB" ∈
      [Constraint.maxPlayersFromTeam 0 "GB", Constraint.minPlayersFromTeam 0 "GB"] :=
  ⟨rfl, by decide⟩

/-- C5 amended: `set_min_players_from_team` with n = 0 silently discards the
zero minimum (the call succeeds and the registry is unchanged), but the
minimum half of `set_num_players_from_team` with n = 0 is not discarded:
that call appends both a zero-maximum and a zero-minimum constraint. -/
theorem zero_min_behaviour (o : Optimizer) (team : String)
    (ht : team ∈ o.col_values o.team_col)
    (hnp : ¬ (0 : Int) > o.num_players)
    (hmax : is_valid (.maxPlayersFromTeam 0 team) o.cs o.num_players = true)
    (hmin : is_valid (.minPlayersFromTeam 0 team)
      (o.cs ++ [.maxPlayersFromTeam 0 team]) o.num_players = true) :
    set_min_players_from_team o 0 team = .ok o.cs ∧
    set_num_players_from_team o 0 team =
      .ok (o.cs ++ [.maxPlayersFromTeam 0 team, .minPlayersFromTeam 0 team]) := by
  constructor
  · unfold set_min_players_from_team
    rw [if_neg hnp, if_neg (not_not_intro ht), if_pos rfl]
  · unfold set_num_players_from_team add_constraint
    rw [if_neg hnp, if_neg (not_not_intro ht), if_pos (by simp [hmax])]
    simp only [if_pos (by simp [hmin] : is_valid (.minPlayersFromTeam 0 team)
      (o.cs ++ [.maxPlayersFromTeam 0 team]) o.num_players = true)]
    simp

/-- Witness for the amended zero-minimum theorem on an empty registry. -/
theorem zero_min_behaviour_witness :
    set_min_players_from_team
      { name_col := "name", id_col := none, team_col := "team",
        col_values := fun _ => ["GB"], num_players := 9, cs := [] } 0 "GB" = .ok [] ∧
    set_num_players_from_team
      { name_col := "name", id_col := none, team_col := "team",
        col_values := fun _ => ["GB"], num_players := 9, cs := [] } 0 "GB" =
      .ok ([] ++ [.maxPlayersFromTeam 0 "GB", .minPlayersFromTeam 0 "GB"]) :=
  zero_min_behaviour _ "GB" (by decide) (by decide) (by decide) (by decide)

/-- C6 counterexample: proposing an include or exclude constraint for a
name absent from the pool raises ValueError (the spec's InvalidArgument),
not InvalidConstraintException — though the registry is indeed left
unchanged. -/
theorem include_absent_raises_value_error :
    set_must_include_player
      { name_col := "name", id_col := none, team_col := "team",
        col_values := fun _ => ["Aaron Rodgers"], num_players := 9, cs := [] }
      (.byName "Tom Brady") = .error (.valueError, []) ∧
    set_exclude_player
      { name_col := "name", id_col := none, team_col := "team",
        col_values := fun _ => ["Aaron Rodgers"], num_players := 9, cs := [] }
      (.byName "Tom Brady") = .error (.valueError, []) ∧
    PyErr.valueError ≠ PyErr.invalidConstraint :=
  ⟨rfl, rfl, by decide⟩

/-- C6 amended: for every id or name not present in the player pool,
`set_must_include_player` and `set_exclude_player` fail with ValueError
(the spec's InvalidArgument) before any mutation, leaving the constraint
registry — in particular its size — unchanged. -/
theorem include_exclude_absent_player (o : Optimizer) (key : String) :
    (key ∉ o.col_values o.name_col →
      set_must_include_player o (.byName key) = .error (.valueError, o.cs) ∧
      set_exclude_player o (.byName key) = .error (.valueError, o.cs)) ∧
    (∀ idc, o.id_col = some idc → key ∉ o.col_values idc →
      set_must_include_player o (.byId key) = .error (.valueError, o.cs) ∧
      set_exclude_player o (.byId key) = .error (.valueError, o.cs)) := by
  constructor
  · intro habs
    simp only [set_must_include_player, set_exclude_player]
    rw [if_neg habs, if_neg habs]
    exact ⟨rfl, rfl⟩
  · intro idc hid habs
    simp only [set_must_include_player, set_exclude_player, hid]
    rw [if_neg habs, if_neg habs]
    exact ⟨rfl, rfl⟩

/-- Witness for the absent-player theorem: Tom Brady is not in the pool. -/
theorem include_exclude_absent_player_witness :
    set_must_include_player
      { name_col := "name", id_col := none, team_col := "team",
        col_values := fun _ => ["Aaron Rodgers"], num_players := 9, cs := [] }
      (.byName "Tom Brady") = .error (.valueError, []) ∧
    set_exclude_player
      { name_col := "name", id_col := none, team_col := "team",
        col_values := fun _ => ["Aaron Rodgers"], num_players := 9, cs := [] }
      (.byName "Tom Brady") = .error (.valueError, []) :=
  (include_exclude_absent_player _ "Tom Brady").1 (by decide)

/-! ## Theorems about optimize_lineup's eager dataset check (claim C7) -/

/-- C7: for every pool and position-range profile, if some position named
in the ranges has zero eligible rows in the pool, then `optimize_lineup`
fails with InvalidDataFrameException (the spec's InvalidDataset) no matter
what the model-building/solving continuation would do — i.e. before
building the model and before invoking the solver. -/
theorem missing_position_fails_eagerly
    (rows : List SelPlayer) (ranges : List (Pos × Nat × Nat))
    (p : Pos) (mn mx : Nat) (hmem : (p, mn, mx) ∈ ranges)
    (habs : ∀ r ∈ rows, r.position ≠ p) :
    ∀ rest, optimize_lineup rest rows ranges = .error .invalidDataFrame := by
  intro rest
  have hp : p ∈ ranges.map (fun r => r.1) := List.mem_map_of_mem _ hmem
  have hnot : ¬ p ∈ rows.map (fun r => r.position) := by
    intro hmemp
    obtain ⟨r, hr, hrp⟩ := List.mem_map.1 hmemp
    exact habs r hr hrp
  have hfalse : ¬ (col_contains_all_values rows (ranges.map (fun r => r.1)) = true) := by
    intro hall
    rw [col_contains_all_values, List.all_eq_true] at hall
    have := hall p hp
    rw [List.contains_eq_any_beq, List.any_eq_true] at this
    obtain ⟨x, hx, hbeq⟩ := this
    exact hnot (by rwa [show x = p from (beq_iff_eq.1 hbeq).symm] at hx)
  unfold optimize_lineup
  rw [if_neg hfalse]

/-- Witness for the eager failure: a pool with one QB and a profile that
requires RBs. -/
theorem missing_position_fails_eagerly_witness :
    optimize_lineup (fun _ => .error .unsolvable)
      [{ name := "Aaron Rodgers", position := Pos.QB, team := "GB",
         opponent := "CHI", points := 20, salary := 5000, datetime := 100 }]
      [(Pos.RB, 2, 3)] = .error .invalidDataFrame :=
  missing_position_fails_eagerly _ _ Pos.RB 2 3 (by decide) (by decide) _

/-! ## Theorems about the serialized player records (claim C10) -/

/-- C10: the per-player flat record written by `write_to_file` uses exactly
the attribute names of `LineupPlayer.__dir__` — name, position, team,
opponent, points, salary, datetime — so the resolved lineup role
`lineup_position` is omitted from the serialized record even though
`to_dict` includes it. -/
theorem write_record_omits_lineup_position (pl : LineupPlayer) :
    (write_record pl).map Prod.fst =
      ["name", "position", "team", "opponent", "points", "salary", "datetime"] ∧
    "lineup_position" ∉ (write_record pl).map Prod.fst ∧
    ("lineup_position", Value.pos pl.lineup_position) ∈ pl.to_dict := by
  refine ⟨rfl, ?_, ?_⟩
  · rw [show (write_record pl).map Prod.fst =
      ["name", "position", "team", "opponent", "points", "salary", "datetime"] from rfl]
    decide
  · show _ ∈ [("name", Value.str pl.name),
      ("position", Value.pos pl.position),
      ("lineup_position", Value.pos pl.lineup_position),
      ("team", Value.str pl.team),
      ("opponent", Value.str pl.opponent),
      ("points", Value.int pl.points),
      ("salary", Value.nat pl.salary),
      ("datetime", Value.str (toString pl.datetime))]
    exact List.Mem.tail _ (List.Mem.tail _ (List.Mem.head _))

/-! ## Theorems about pool construction (claims C8, C9) -/

/-- C8 counterexample: a row whose required values (name, position, salary,
score, team, opponent, kickoff time, id) are all non-null is nevertheless
dropped by `dropna()`, because the null sits in an extra, non-required
column — `dropna` inspects every column of the table, not just the
required ones. -/
theorem dropna_drops_required_complete_row :
    required_non_null true
      { name := some "Aaron Rodgers", position := some "QB", salary := some 5000,
        points := some 20, team := some "GB", opponent := some "CHI",
        datetime := some 100, id := some "1", extra := none } = true ∧
    required_non_null false
      { name := some "Aaron Rodgers", position := some "QB", salary := some 5000,
        points := some 20, team := some "GB", opponent := some "CHI",
        datetime := some 100, id := some "1", extra := none } = true ∧
    construct_pool
      [{ name := some "Aaron Rodgers", position := some "QB", salary := some 5000,
         points := some 20, team := some "GB", opponent := some "CHI",
         datetime := some 100, id := some "1", extra := none }] = [] :=
  ⟨rfl, rfl, rfl⟩

/-- C8 amended: exactly the rows with a missing value in ANY column of the
(position-normalized) table are dropped — a row survives construction if
and only if every one of its cells is non-null; in particular every
surviving row has non-null required values, but a row whose required values
are all non-null may still be dropped when an extra column is null. -/
theorem construct_pool_membership (rows : List RawRow) (r : RawRow) :
    (r ∈ construct_pool rows ↔ r ∈ rows.map normalizeRow ∧ dropna_keep r = true) ∧
    (r ∈ construct_pool rows →
      required_non_null true r = true ∧ required_non_null false r = true) := by
  constructor
  · exact List.mem_filter
  · intro hr
    have hkeep : dropna_keep r = true := (List.mem_filter.1 hr).2
    simp only [dropna_keep, Bool.and_eq_true] at hkeep
    obtain ⟨⟨⟨⟨⟨⟨⟨⟨h1, h2⟩, h3⟩, h4⟩, h5⟩, h6⟩, h7⟩, h8⟩, h9⟩ := hkeep
    constructor <;> simp [required_non_null, h1, h2, h3, h4, h5, h6, h7, h8]

/-- Witness for the amended construction theorem: a fully non-null row
survives and hence has non-null required values. -/
theorem construct_pool_membership_witness :
    required_non_null true
      { name := some "Aaron Rodgers", position := some "QB", salary := some 5000,
        points := some 20, team := some "GB", opponent := some "CHI",
        datetime := some 100, id := some "1", extra := some "x" } = true ∧
    required_non_null false
      { name := some "Aaron Rodgers", position := some "QB", salary := some 5000,
        points := some 20, team := some "GB", opponent := some "CHI",
        datetime := some 100, id := some "1", extra := some "x" } = true :=
  (construct_pool_membership
    [{ name := some "Aaron Rodgers", position := some "QB", salary := some 5000,
       points := some 20, team := some "GB", opponent := some "CHI",
       datetime := some 100, id := some "1", extra := some "x" }] _).2 (by decide)

/-- Session operations never touch a store entry other than the session's
own table, and never change which entry is the session's own. -/
theorem applyOps_frame (ops : List SessionOp) (st : SessionState) (i : Nat)
    (h : i ≠ st.dataIdx) :
    (applyOps st ops).store[i]? = st.store[i]? ∧
    (applyOps st ops).dataIdx = st.dataIdx := by
  induction ops generalizing st with
  | nil => exact ⟨rfl, rfl⟩
  | cons op rest ih =>
    have hstep : (applyOp st op).store[i]? = st.store[i]? ∧
        (applyOp st op).dataIdx = st.dataIdx := by
      cases op with
      | addConstraint c => exact ⟨rfl, rfl⟩
      | clearConstraints => exact ⟨rfl, rfl⟩
      | mutateOwnData f =>
        exact ⟨List.getElem?_set_ne (fun he => h he.symm), rfl⟩
    have hrec := ih (applyOp st op) (hstep.2 ▸ h)
    exact ⟨hrec.1.trans hstep.1, hrec.2.trans hstep.2⟩

/-- C9: constructing an optimizer session operates on a private copy — the
caller's table (entry `src` of the store) is unchanged by construction
(which applies position normalization and row dropping only to the fresh
copy) and by every subsequent sequence of session operations. -/
theorem session_private_copy (store : List (List RawRow)) (src : Nat)
    (h : src < store.length) (ops : List SessionOp) :
    (construct_session store src).store[src]? = store[src]? ∧
    (applyOps (construct_session store src) ops).store[src]? = store[src]? := by
  have h1 : (construct_session store src).store[src]? = store[src]? := by
    unfold construct_session
    exact List.getElem?_append_left h
  have hne : src ≠ (construct_session store src).dataIdx := by
    have hd : (construct_session store src).dataIdx = store.length := rfl
    omega
  exact ⟨h1, (applyOps_frame ops _ src hne).1.trans h1⟩

/-- Witness for the private-copy theorem: a one-table store, with the
session clearing its registry and rewriting its own table to empty. -/
theorem session_private_copy_witness :
    (construct_session
      [[{ name := some "Aaron Rodgers", position := some "QB", salary := some 5000,
          points := some 20, team := some "GB", opponent := some "CHI",
          datetime := some 100, id := some "1", extra := some "x" }]] 0).store[0]? =
      [[{ name := some "Aaron Rodgers", position := some "QB", salary := some 5000,
          points := some 20, team := some "GB", opponent := some "CHI",
          datetime := some 100, id := some "1", extra := some "x" }]][0]? ∧
    (applyOps (construct_session
      [[{ name := some "Aaron Rodgers", position := some "QB", salary := some 5000,
          points := some 20, team := some "GB", opponent := some "CHI",
          datetime := some 100, id := some "1", extra := some "x" }]] 0)
      [.clearConstraints, .mutateOwnData (fun _ => [])]).store[0]? =
      [[{ name := some "Aaron Rodgers", position := some "QB", salary := some 5000,
          points := some 20, team := some "GB", opponent := some "CHI",
          datetime := some 100, id := some "1", extra := some "x" }]][0]? :=
  session_private_copy _ 0 (by decide) _

/-! ## Theorems about the flex promotion itself (claims C1, C2) -/

/-- C1: for every successful optimization whose selected set contains at
least one player of each FLEX-eligible position (and whose site profile
declares a range for each of them), lineup extraction promotes exactly the
player determined by the fixed policy — visiting RB, then WR, then TE, at
the first position whose selected count equals its declared maximum it
promotes the selected player of that position with the latest kickoff time
to FLEX (rewriting exactly one entry) and visits no further positions; when
no position is saturated, nothing is promoted. -/
theorem flex_promotion_policy
    (pc : Pos → Option (Nat × Nat)) (ps : List SelPlayer)
    (hdef : ∀ r ∈ flexOrder, (pc r).isSome)
    (hcnt : ∀ r ∈ flexOrder, 0 < posCount ps r) :
    (∀ q, firstSaturated pc ps = some q →
      ∃ i pl, (ps.map LineupPlayer.init)[i]? = some pl ∧ pl.position = q ∧
        extractPlayers pc ps =
          .ok ((ps.map LineupPlayer.init).set i
            { pl with lineup_position := Pos.FLEX }) ∧
        ∀ p ∈ ps, p.position = q → p.datetime ≤ pl.datetime) ∧
    (firstSaturated pc ps = none →
      extractPlayers pc ps = .ok (ps.map LineupPlayer.init)) := by
  constructor
  · intro q hq
    rw [firstSaturated] at hq
    have hmemq : q ∈ flexOrder := List.mem_of_find?_eq_some hq
    have hcq : 0 < posCount ps q := hcnt q hmemq
    have hloop : flexLoop pc ps (ps.map LineupPlayer.init) flexOrder =
        .ok (promoteAt (ps.map LineupPlayer.init) q) :=
      flexLoop_found pc ps _ flexOrder q (fun r hr => ⟨hdef r hr, hcnt r hr⟩) hq
    have hflt : 0 <
        ((ps.map LineupPlayer.init).filter (fun p => p.position == q)).length := by
      rw [filter_map_init_length]
      exact hcq
    obtain ⟨i, pl, hip, hpos, heq, hmax⟩ :=
      promoteAt_spec (ps.map LineupPlayer.init) q hflt
    refine ⟨i, pl, hip, hpos, ?_, ?_⟩
    · rw [extractPlayers, hloop, heq]
    · intro p hp hposp
      have hmem : LineupPlayer.init p ∈ ps.map LineupPlayer.init :=
        List.mem_map_of_mem _ hp
      exact hmax _ hmem hposp
  · intro hnone
    rw [firstSaturated] at hnone
    rw [extractPlayers]
    exact flexLoop_none pc ps _ flexOrder (fun r hr => ⟨hdef r hr, hcnt r hr⟩) hnone

/-- Witness for the promotion-policy theorem on `psDemo`/`pcDemo`, whose
first saturated position is RB. -/
theorem flex_promotion_policy_witness :
    ∃ i pl, (psDemo.map LineupPlayer.init)[i]? = some pl ∧ pl.position = Pos.RB ∧
      extractPlayers pcDemo psDemo =
        .ok ((psDemo.map LineupPlayer.init).set i
          { pl with lineup_position := Pos.FLEX }) ∧
      ∀ p ∈ psDemo, p.position = Pos.RB → p.datetime ≤ pl.datetime :=
  (flex_promotion_policy pcDemo psDemo (by decide) (by decide)).1 Pos.RB (by rfl)

/-- C2 counterexample: a selected set with no RB under a profile whose
ranges all hold and none of whose FLEX-eligible positions is saturated —
lineup construction does not succeed with zero promotions as claimed, it
raises KeyError (the `position_to_count[position]` lookup of an unselected
position), even though every FLEX-eligible position has a declared range. -/
theorem no_saturation_can_raise_key_error :
    extractPlayers pcCex psCex = .error .keyError ∧
    firstSaturated pcCex psCex = none ∧
    (∀ r ∈ flexOrder, (pcCex r).isSome) :=
  ⟨rfl, rfl, by decide⟩

/-- C2 amended: for every successful optimization whose selected set
contains at least one player of each FLEX-eligible position (with a
declared range for each), the constructed lineup has exactly one player
whose lineup role differs from its raw position when some FLEX-eligible
position's selected count equals its declared maximum, and zero such
players otherwise (construction then succeeds with no promotion); without
at least one selected player per FLEX-eligible position, construction may
instead fail with KeyError. -/
theorem role_override_count
    (pc : Pos → Option (Nat × Nat)) (ps : List SelPlayer)
    (hdef : ∀ r ∈ flexOrder, (pc r).isSome)
    (hcnt : ∀ r ∈ flexOrder, 0 < posCount ps r) :
    ∃ L, extractPlayers pc ps = .ok L ∧
      ((L.filter (fun p => p.lineup_position != p.position)).length =
        if (firstSaturated pc ps).isSome then 1 else 0) := by
  cases hfs : firstSaturated pc ps with
  | none =>
    refine ⟨ps.map LineupPlayer.init, ?_, ?_⟩
    · rw [extractPlayers]
      rw [firstSaturated] at hfs
      exact flexLoop_none pc ps _ flexOrder (fun r hr => ⟨hdef r hr, hcnt r hr⟩) hfs
    · rw [List.filter_eq_nil_iff.2
        (fun a ha => by simp [init_roles_match ps a ha])]
      simp
  | some q =>
    rw [firstSaturated] at hfs
    have hmemq : q ∈ flexOrder := List.mem_of_find?_eq_some hfs
    have hloop : flexLoop pc ps (ps.map LineupPlayer.init) flexOrder =
        .ok (promoteAt (ps.map LineupPlayer.init) q) :=
      flexLoop_found pc ps _ flexOrder q (fun r hr => ⟨hdef r hr, hcnt r hr⟩) hfs
    have hflt : 0 <
        ((ps.map LineupPlayer.init).filter (fun p => p.position == q)).length := by
      rw [filter_map_init_length]
      exact hcnt q hmemq
    obtain ⟨i, pl, hip, hpos, heq, _⟩ :=
      promoteAt_spec (ps.map LineupPlayer.init) q hflt
    have hqflex : q ≠ Pos.FLEX := by
      have hq3 : q = Pos.RB ∨ q = Pos.WR ∨ q = Pos.TE := by
        simpa [flexOrder] using hmemq
      rcases hq3 with rfl | rfl | rfl <;> decide
    have hilt : i < (ps.map LineupPlayer.init).length :=
      (List.getElem?_eq_some_iff.1 hip).1
    have hpredy : (({ pl with lineup_position := Pos.FLEX } :
        LineupPlayer).lineup_position !=
        ({ pl with lineup_position := Pos.FLEX } : LineupPlayer).position) = true := by
      simp only []
      rw [hpos]
      simpa using fun habs => hqflex habs.symm
    refine ⟨_, by rw [extractPlayers, hloop, heq], ?_⟩
    rw [filter_set_of_all_false _ _ i _ (init_roles_match ps) hpredy hilt]
    simp

/-- Witness for the override-count theorem on `psDemo`/`pcDemo`. -/
theorem role_override_count_witness :
    ∃ L, extractPlayers pcDemo psDemo = .ok L ∧
      ((L.filter (fun p => p.lineup_position != p.position)).length =
        if (firstSaturated pcDemo psDemo).isSome then 1 else 0) :=
  role_override_count pcDemo psDemo (by decide) (by decide)

end DfsOptimize
